import Mathlib

/-!
Verification of the fit-and-pad image transform of
`src/IGFormatResizer.py` (function `resize_with_transparent_bg`, the
`PRESETS` table and the `on_preset_change` lookup).

The pixel-level operations performed by the Python code are those of the
Pillow library: `Image.open(...).convert("RGBA")`, `Image.thumbnail`
(Pillow ≥ 7 dimension logic, LANCZOS resampling), `Image.new("RGBA", ...)`,
`Image.paste(img, (x, y), img)` (alpha-masked paste, `fill_mask_RGBA` /
`BLEND` / `MULDIV255` in Pillow's `Paste.c`), and `Image.save`.  Those
operations are embedded below.  Pillow computes the thumbnail dimensions
with Python floats; the embedding uses exact rationals.  The LANCZOS
convolution itself computes pixel *values* in floating point; the claims
under verification depend only on the dimensions of the resized image and
on the behaviour of the masked paste for arbitrary scaled contents, so the
resampled pixel contents are a parameter (`sample`) of the transform.
-/

namespace IGFormatResizer

/-- An RGBA pixel: four 8-bit channels (values 0..255). -/
structure RGBA where
  r : ℕ
  g : ℕ
  b : ℕ
  a : ℕ
deriving DecidableEq, Repr

/-- An in-memory raster image: dimensions and a pixel map.  Pixel lookups
outside the rectangle are irrelevant (never inspected by the transform). -/
structure Img where
  width : ℕ
  height : ℕ
  pixel : ℕ → ℕ → RGBA

/-- Pillow's `round_aspect(number, key)` from `Image.thumbnail`:
`max(min(math.floor(number), math.ceil(number), key=key), 1)`.
Python's two-argument `min` with a key returns the first argument on a
tie, hence the `≤`. -/
def round_aspect (number : ℚ) (key : ℤ → ℚ) : ℤ :=
  max (if key ⌊number⌋ ≤ key ⌈number⌉ then ⌊number⌋ else ⌈number⌉) 1

/-- Dimensions produced by Pillow's `Image.thumbnail((tgtW, tgtH), ...)` on
a source of size `srcW × srcH` (the `preserve_aspect_ratio` inner function,
Pillow ≥ 7; identical through Pillow 11):

    x, y = provided_size
    if x >= self.width and y >= self.height:
        return                      -- image left unchanged
    aspect = self.width / self.height
    if x / y >= aspect:
        x = round_aspect(y * aspect, key=lambda n: abs(aspect - n / y))
    else:
        y = round_aspect(x / aspect,
                         key=lambda n: 0 if n == 0 else abs(aspect - x / n))
-/
def thumbnailSize (srcW srcH tgtW tgtH : ℕ) : ℕ × ℕ :=
  if srcW ≤ tgtW ∧ srcH ≤ tgtH then (srcW, srcH)
  else
    let aspect : ℚ := (srcW : ℚ) / (srcH : ℚ)
    if aspect ≤ (tgtW : ℚ) / (tgtH : ℚ) then
      ((round_aspect ((tgtH : ℚ) * aspect)
          (fun n => |aspect - (n : ℚ) / (tgtH : ℚ)|)).toNat, tgtH)
    else
      (tgtW,
       (round_aspect ((tgtW : ℚ) / aspect)
          (fun n => if n = 0 then 0 else |aspect - (tgtW : ℚ) / (n : ℚ)|)).toNat)

/-- `img.thumbnail((width, height), LANCZOS)`: compute the target size and
resize when it differs from the current size (`if self.size != size`).
`sample` stands for the pixel contents produced by the LANCZOS filter. -/
def thumbnail (im : Img) (width height : ℕ) (sample : ℕ → ℕ → RGBA) : Img :=
  let sz := thumbnailSize im.width im.height width height
  if sz = (im.width, im.height) then im
  else { width := sz.1, height := sz.2, pixel := sample }

/-- `Image.new("RGBA", (width, height), (0, 0, 0, 0))`: a canvas with every
pixel fully transparent black. -/
def newCanvas (width height : ℕ) : Img :=
  { width := width, height := height, pixel := fun _ _ => ⟨0, 0, 0, 0⟩ }

/-- The centered paste coordinate of the source:
`x = (width - img.width) // 2` — Python floor division on integers. -/
def centerOffset (target scaled : ℕ) : ℤ :=
  Int.fdiv ((target : ℤ) - (scaled : ℤ)) 2

/-- Pillow's `MULDIV255(a, b, tmp)` rounding helper from `Paste.c`:
`tmp = a * b + 128; return ((tmp >> 8) + tmp) >> 8`. -/
def muldiv255 (a b : ℕ) : ℕ :=
  let t := a * b + 128
  (t / 256 + t) / 256

/-- Pillow's `BLEND(mask, in1, in2, tmp1)` from `Paste.c`:
`MULDIV255(in1, 255 - mask, tmp1) + MULDIV255(in2, mask, tmp1)`. -/
def blendChannel (mask c1 c2 : ℕ) : ℕ :=
  muldiv255 c1 (255 - mask) + muldiv255 c2 mask

/-- Whether output coordinate `(i, j)` falls inside the pasted rectangle of
an `iw × ih` image placed at `(px, py)`. -/
def inPasteRegion (px py : ℤ) (iw ih : ℕ) (i j : ℕ) : Prop :=
  px ≤ (i : ℤ) ∧ (i : ℤ) < px + (iw : ℤ) ∧ py ≤ (j : ℤ) ∧ (j : ℤ) < py + (ih : ℤ)

instance (px py : ℤ) (iw ih : ℕ) (i j : ℕ) :
    Decidable (inPasteRegion px py iw ih i j) := by
  unfold inPasteRegion; infer_instance

/-- `canvas.paste(img, (x, y), img)`: alpha-masked paste.  The mask is the
pasted image's own alpha band (`fill_mask_RGBA` in Pillow's `Paste.c`);
each channel of an affected pixel is blended with `BLEND`.  Pixels outside
the pasted rectangle are untouched. -/
def pasteWithAlpha (canvas im : Img) (px py : ℤ) : Img :=
  { width := canvas.width
    height := canvas.height
    pixel := fun i j =>
      if inPasteRegion px py im.width im.height i j then
        let s := im.pixel ((i : ℤ) - px).toNat ((j : ℤ) - py).toNat
        let c := canvas.pixel i j
        ⟨blendChannel s.a c.r s.r, blendChannel s.a c.g s.g,
         blendChannel s.a c.b s.b, blendChannel s.a c.a s.a⟩
      else canvas.pixel i j }

/-- The pure core of `resize_with_transparent_bg` (lines 59–77): thumbnail
the RGBA source into the target box, allocate a transparent canvas of
exactly the target size, and paste the scaled image centered, using its own
alpha as the mask. -/
def fit_and_pad (src : Img) (width height : ℕ) (sample : ℕ → ℕ → RGBA) : Img :=
  let img := thumbnail src width height sample
  let canvas := newCanvas width height
  let x := centerOffset width img.width
  let y := centerOffset height img.height
  pasteWithAlpha canvas img x y

/-- The Instagram dimension presets dictionary (`PRESETS`, lines 46–50),
label ↦ (width, height), in source order. -/
def PRESETS : List (String × ℕ × ℕ) :=
  [("Square (1:1) 1080×1080", (1080, 1080)),
   ("Portrait (4:5) 1080×1350", (1080, 1350)),
   ("Landscape (16:9) 1080×606", (1080, 606))]

/-- The preset lookup performed by `on_preset_change` (line 109):
`PRESETS.get(preset_var.get(), PRESETS["Portrait (4:5) 1080×1350"])` —
a dictionary lookup falling back to the Portrait entry. -/
def on_preset_change (label : String) : ℕ × ℕ :=
  (((PRESETS.find? (fun p => p.1 == label)).map Prod.snd).getD (1080, 1350))

/-- The kind of Python exception raised by a Pillow / filesystem operation
before the `except` clauses of `resize_with_transparent_bg` translate it. -/
inductive RawError where
  /-- `FileNotFoundError`: `open` on a path whose file (or parent
  directory, for writing) does not exist. -/
  | fileNotFound : RawError
  /-- `PermissionError`: `open` on a path the process may not access. -/
  | permission : RawError
  /-- `PIL.UnidentifiedImageError` (an `OSError` that is neither of the
  above): the file exists and is readable but is not a decodable image. -/
  | unidentifiedImage : RawError
deriving DecidableEq, Repr

/-- The state of the filesystem relevant to one invocation: properties of
the input path, the source image stored there, and properties of the
output path. -/
structure World where
  /-- The input path names an existing file. -/
  inputExists : Bool
  /-- The process has permission to read the input file. -/
  inputReadable : Bool
  /-- The input file is a decodable raster image. -/
  inputDecodable : Bool
  /-- The decoded source image, already converted to RGBA. -/
  source : Img
  /-- The parent directory of the output path exists. -/
  outputDirExists : Bool
  /-- The process has permission to create/write the output file. -/
  outputWritable : Bool

/-- `Image.open(input_path).convert("RGBA")` (line 59): raises
`FileNotFoundError` for a missing file, `PermissionError` for an
unreadable one, `UnidentifiedImageError` for a corrupt/undecodable one,
and otherwise returns the RGBA-converted image. -/
def openImage (w : World) : Except RawError Img :=
  if !w.inputExists then .error .fileNotFound
  else if !w.inputReadable then .error .permission
  else if !w.inputDecodable then .error .unidentifiedImage
  else .ok w.source

/-- `canvas.save(output_path, format="PNG")` (line 80): `builtins.open`
raises `FileNotFoundError` when the parent directory does not exist and
`PermissionError` when writing is not permitted; otherwise the PNG is
written. -/
def saveImage (w : World) : Except RawError Unit :=
  if !w.outputDirExists then .error .fileNotFound
  else if !w.outputWritable then .error .permission
  else .ok ()

/-- The exception re-raised to the caller by `resize_with_transparent_bg`
(lines 82–87), carrying its message string. -/
inductive ResizeError where
  /-- `raise FileNotFoundError(f"Could not find input file: {input_path}")` -/
  | fileNotFoundError (msg : String) : ResizeError
  /-- `raise PermissionError(f"Permission denied when saving to: {output_path}")` -/
  | permissionError (msg : String) : ResizeError
  /-- `raise Exception(f"Error processing image: {str(e)}")` -/
  | processingError (msg : String) : ResizeError
deriving DecidableEq, Repr

/-- The `except` clauses of `resize_with_transparent_bg` (lines 82–87): a
single translation applied to whatever exception escapes the `try` body,
wherever inside the body it was raised. -/
def translateError (e : RawError) (input_path output_path : String) : ResizeError :=
  match e with
  | .fileNotFound => .fileNotFoundError ("Could not find input file: " ++ input_path)
  | .permission => .permissionError ("Permission denied when saving to: " ++ output_path)
  | .unidentifiedImage =>
      .processingError ("Error processing image: cannot identify image file " ++ input_path)

/-- The observable outcome of one invocation. -/
structure Outcome where
  /-- `Except.ok true` models `return True`; `Except.error e` models the
  re-raised exception. -/
  result : Except ResizeError Bool
  /-- The image written to the output path, when one was written. -/
  written : Option Img

/-- `resize_with_transparent_bg(input_path, output_path, width, height)`
(lines 52–87): open and convert the source, run the fit-and-pad pipeline,
save the canvas as PNG, and translate any escaping exception via the
`except` clauses.  No output is written unless the save succeeds. -/
def resize_with_transparent_bg (w : World) (input_path output_path : String)
    (width height : ℕ) (sample : ℕ → ℕ → RGBA) : Outcome :=
  match openImage w with
  | .error e => ⟨.error (translateError e input_path output_path), none⟩
  | .ok img =>
      let canvas := fit_and_pad img width height sample
      match saveImage w with
      | .error e => ⟨.error (translateError e input_path output_path), none⟩
      | .ok _ => ⟨.ok true, some canvas⟩

/-- The uniform scale factor as the specification words it:
`s = min(target_width / src_width, target_height / src_height, 1.0)`. -/
def scaleFactor (srcW srcH tgtW tgtH : ℕ) : ℚ :=
  min ((tgtW : ℚ) / (srcW : ℚ)) (min ((tgtH : ℚ) / (srcH : ℚ)) 1)

/-- The scaled dimensions as the specification words them, for comparison
with `thumbnailSize`: `round(src_width * s)` × `round(src_height * s)`,
clamped so neither dimension exceeds the target box. -/
def specScaledDims (srcW srcH tgtW tgtH : ℕ) : ℤ × ℤ :=
  (min (round ((srcW : ℚ) * scaleFactor srcW srcH tgtW tgtH)) (tgtW : ℤ),
   min (round ((srcH : ℚ) * scaleFactor srcW srcH tgtW tgtH)) (tgtH : ℤ))

/-! Concrete data used by the closed witness theorems. -/

/-- A fully transparent pixel map, used as concrete resampled contents. -/
def demoSample : ℕ → ℕ → RGBA := fun _ _ => ⟨0, 0, 0, 0⟩

/-- A concrete 500 × 500 RGBA source image (the spec's second scenario). -/
def demoSrc : Img := { width := 500, height := 500, pixel := demoSample }

/-- A filesystem state in which everything succeeds. -/
def demoWorld : World :=
  { inputExists := true, inputReadable := true, inputDecodable := true,
    source := demoSrc, outputDirExists := true, outputWritable := true }

/-- A filesystem state whose input file exists but cannot be read. -/
def unreadableInputWorld : World :=
  { inputExists := true, inputReadable := false, inputDecodable := true,
    source := demoSrc, outputDirExists := true, outputWritable := true }

/-- A filesystem state in which the input path does not exist. -/
def missingInputWorld : World :=
  { inputExists := false, inputReadable := true, inputDecodable := true,
    source := demoSrc, outputDirExists := true, outputWritable := true }

/-- A filesystem state whose output path lies in a nonexistent directory. -/
def missingOutputDirWorld : World :=
  { inputExists := true, inputReadable := true, inputDecodable := true,
    source := demoSrc, outputDirExists := false, outputWritable := true }

/-- A filesystem state whose output location denies write permission. -/
def unwritableOutputWorld : World :=
  { inputExists := true, inputReadable := true, inputDecodable := true,
    source := demoSrc, outputDirExists := true, outputWritable := false }

/-- The invocations in which a `PermissionError` is raised inside the
`try` body: reading the source is denied, or (everything up to the save
having succeeded) writing the destination is denied. -/
def raisesPermissionError (w : World) : Prop :=
  (w.inputExists = true ∧ w.inputReadable = false) ∨
  (w.inputExists = true ∧ w.inputReadable = true ∧ w.inputDecodable = true ∧
   w.outputDirExists = true ∧ w.outputWritable = false)

/-- C1: for every positive target (width, height) and every decodable
source image, the image saved by `resize_with_transparent_bg` has
dimensions exactly (width, height), regardless of the source image's
original dimensions or aspect ratio.  (Proved for all targets, positive or
not: whenever an output image is written, its dimensions are the target
dimensions.) -/
theorem saved_image_dims_eq_target (w : World) (input_path output_path : String)
    (width height : ℕ) (sample : ℕ → ℕ → RGBA) (img : Img)
    (h : (resize_with_transparent_bg w input_path output_path width height sample).written
      = some img) :
    img.width = width ∧ img.height = height := by
  unfold resize_with_transparent_bg at h
  split at h
  · exact absurd h (by simp)
  · split at h
    · exact absurd h (by simp)
    · simp only [Option.some.injEq] at h
      subst h
      exact ⟨rfl, rfl⟩

/-- Witness for C1 at a concrete invocation. -/
theorem saved_image_dims_eq_target_witness :
    (fit_and_pad demoSrc 1080 1350 demoSample).width = 1080 ∧
    (fit_and_pad demoSrc 1080 1350 demoSample).height = 1350 :=
  saved_image_dims_eq_target demoWorld "in.png" "out.png" 1080 1350 demoSample
    (fit_and_pad demoSrc 1080 1350 demoSample) rfl

/-- C3: for every source image with source_width ≤ target_width and
source_height ≤ target_height, the transform performs no upscaling: the
thumbnail size equals the source size and the thumbnail step is the
identity on the image. -/
theorem thumbnail_no_upscale (im : Img) (width height : ℕ) (sample : ℕ → ℕ → RGBA)
    (hw : im.width ≤ width) (hh : im.height ≤ height) :
    thumbnailSize im.width im.height width height = (im.width, im.height) ∧
    thumbnail im width height sample = im := by
  have hsz : thumbnailSize im.width im.height width height = (im.width, im.height) := by
    unfold thumbnailSize
    rw [if_pos ⟨hw, hh⟩]
  refine ⟨hsz, ?_⟩
  unfold thumbnail
  simp [hsz]

/-- Witness for C3: the spec's 500×500-into-(1080, 1350) scenario. -/
theorem thumbnail_no_upscale_witness :
    thumbnailSize demoSrc.width demoSrc.height 1080 1350 = (demoSrc.width, demoSrc.height) ∧
    thumbnail demoSrc 1080 1350 demoSample = demoSrc :=
  thumbnail_no_upscale demoSrc 1080 1350 demoSample (by decide) (by decide)

/-- C4: for every scaled content size not exceeding the target box, the
paste offset used by `fit_and_pad` is `centerOffset target scaled =
(target - scaled) // 2` (floor division), the offset is nonnegative, the
left/top padding never exceeds the right/bottom padding, and the two
differ by at most one pixel — so an odd leftover pixel of padding is on
the bottom/right side, never the top/left. -/
theorem centerOffset_floor_right_bias (target scaled : ℕ) (h : scaled ≤ target) :
    centerOffset target scaled = ((target : ℤ) - (scaled : ℤ)) / 2 ∧
    0 ≤ centerOffset target scaled ∧
    centerOffset target scaled ≤ (target : ℤ) - (scaled : ℤ) - centerOffset target scaled ∧
    (target : ℤ) - (scaled : ℤ) - centerOffset target scaled ≤ centerOffset target scaled + 1 := by
  have heq : centerOffset target scaled = ((target : ℤ) - (scaled : ℤ)) / 2 :=
    Int.fdiv_eq_ediv _ (by omega)
  refine ⟨heq, ?_, ?_, ?_⟩ <;> rw [heq] <;> omega

/-- Witness for C4: a 500-pixel-wide content in a 1080-wide target. -/
theorem centerOffset_floor_right_bias_witness :
    centerOffset 1080 500 = ((1080 : ℤ) - (500 : ℤ)) / 2 ∧
    0 ≤ centerOffset 1080 500 ∧
    centerOffset 1080 500 ≤ (1080 : ℤ) - (500 : ℤ) - centerOffset 1080 500 ∧
    (1080 : ℤ) - (500 : ℤ) - centerOffset 1080 500 ≤ centerOffset 1080 500 + 1 :=
  centerOffset_floor_right_bias 1080 500 (by decide)

/-- C5: every output pixel outside the centered scaled region is the
untouched canvas pixel (0, 0, 0, 0); in particular its alpha is 0.  The
canvas is freshly allocated at the target size fully transparent, and only
the centered region is pasted over. -/
theorem padding_pixels_transparent (src : Img) (width height : ℕ)
    (sample : ℕ → ℕ → RGBA) (i j : ℕ)
    (h : ¬ inPasteRegion
        (centerOffset width (thumbnail src width height sample).width)
        (centerOffset height (thumbnail src width height sample).height)
        (thumbnail src width height sample).width
        (thumbnail src width height sample).height i j) :
    (fit_and_pad src width height sample).pixel i j = ⟨0, 0, 0, 0⟩ ∧
    ((fit_and_pad src width height sample).pixel i j).a = 0 := by
  have hp : (fit_and_pad src width height sample).pixel i j = ⟨0, 0, 0, 0⟩ := by
    show (if inPasteRegion _ _ _ _ i j then _ else (newCanvas width height).pixel i j) = _
    rw [if_neg h]
    rfl
  exact ⟨hp, by rw [hp]⟩

/-- Witness for C5: the top-left corner (0, 0) of the 1080 × 1350 output
for the 500 × 500 source lies outside the pasted region (offsets 290, 425). -/
theorem padding_pixels_transparent_witness :
    (fit_and_pad demoSrc 1080 1350 demoSample).pixel 0 0 = ⟨0, 0, 0, 0⟩ ∧
    ((fit_and_pad demoSrc 1080 1350 demoSample).pixel 0 0).a = 0 :=
  padding_pixels_transparent demoSrc 1080 1350 demoSample 0 0 (by decide)

/-- C6: the paste is alpha-aware — the scaled image's own alpha channel is
the blend mask, so a fully transparent pixel of the scaled image leaves
the corresponding output pixel (over the transparent canvas) with
alpha 0, not an opaque overwrite. -/
theorem paste_preserves_transparency (src : Img) (width height : ℕ)
    (sample : ℕ → ℕ → RGBA) (i j : ℕ)
    (hin : inPasteRegion
        (centerOffset width (thumbnail src width height sample).width)
        (centerOffset height (thumbnail src width height sample).height)
        (thumbnail src width height sample).width
        (thumbnail src width height sample).height i j)
    (ha : ((thumbnail src width height sample).pixel
        ((i : ℤ) - centerOffset width (thumbnail src width height sample).width).toNat
        ((j : ℤ) - centerOffset height (thumbnail src width height sample).height).toNat).a
      = 0) :
    ((fit_and_pad src width height sample).pixel i j).a = 0 := by
  show (if inPasteRegion _ _ _ _ i j then _ else (newCanvas width height).pixel i j).a = 0
  rw [if_pos hin]
  show blendChannel _ ((newCanvas width height).pixel i j).a _ = 0
  rw [ha]
  show blendChannel 0 (0 : ℕ) 0 = 0
  rfl

/-- Witness for C6: pixel (300, 500) lies inside the pasted region of the
(all-transparent) 500 × 500 source in the 1080 × 1350 target. -/
theorem paste_preserves_transparency_witness :
    ((fit_and_pad demoSrc 1080 1350 demoSample).pixel 300 500).a = 0 :=
  paste_preserves_transparency demoSrc 1080 1350 demoSample 300 500 (by decide) (by decide)

/-- C7 counterexample: a source that exists but is unreadable (permission
denied on read) is not signaled as a source-unreadable failure naming the
input path — the single `except PermissionError` clause re-raises it as
"Permission denied when saving to: out.png", naming the output path. -/
theorem unreadable_source_blames_output :
    (resize_with_transparent_bg unreadableInputWorld "in.png" "out.png" 1080 1350
        demoSample).result
      = .error (.permissionError "Permission denied when saving to: out.png") ∧
    (resize_with_transparent_bg unreadableInputWorld "in.png" "out.png" 1080 1350
        demoSample).written = none :=
  ⟨rfl, rfl⟩

/-- C7 amended: for every invocation whose input path does not exist, the
failure is a `FileNotFoundError` whose message names the input path, and
no output file is created or modified. -/
theorem missing_input_names_input_path (w : World) (input_path output_path : String)
    (width height : ℕ) (sample : ℕ → ℕ → RGBA) (h : w.inputExists = false) :
    (resize_with_transparent_bg w input_path output_path width height sample).result
      = .error (.fileNotFoundError ("Could not find input file: " ++ input_path)) ∧
    (resize_with_transparent_bg w input_path output_path width height sample).written
      = none := by
  unfold resize_with_transparent_bg openImage translateError
  rw [h]
  exact ⟨rfl, rfl⟩

/-- Witness for amended C7 at a concrete invocation. -/
theorem missing_input_names_input_path_witness :
    (resize_with_transparent_bg missingInputWorld "in.png" "out.png" 1080 1350
        demoSample).result
      = .error (.fileNotFoundError ("Could not find input file: " ++ "in.png")) ∧
    (resize_with_transparent_bg missingInputWorld "in.png" "out.png" 1080 1350
        demoSample).written = none :=
  missing_input_names_input_path missingInputWorld "in.png" "out.png" 1080 1350
    demoSample rfl

/-- C8 counterexample: a destination that cannot be written because its
parent directory does not exist is not signaled as a destination-unwritable
failure naming the output path — the save raises `FileNotFoundError`,
which the `except FileNotFoundError` clause re-raises as "Could not find
input file: in.png", naming the input path. -/
theorem missing_output_dir_blames_input :
    (resize_with_transparent_bg missingOutputDirWorld "in.png" "out.png" 1080 1350
        demoSample).result
      = .error (.fileNotFoundError "Could not find input file: in.png") ∧
    (resize_with_transparent_bg missingOutputDirWorld "in.png" "out.png" 1080 1350
        demoSample).written = none :=
  ⟨rfl, rfl⟩

/-- C8 amended: for every invocation in which the source opens and decodes
but the destination denies write permission, the failure is a
`PermissionError` naming the output path, and no output file (partial or
otherwise) is left behind.  (A destination in a nonexistent directory is
instead signaled as a file-not-found error naming the input path.) -/
theorem unwritable_destination_names_output_path (w : World)
    (input_path output_path : String) (width height : ℕ) (sample : ℕ → ℕ → RGBA)
    (h1 : w.inputExists = true) (h2 : w.inputReadable = true)
    (h3 : w.inputDecodable = true) (h4 : w.outputDirExists = true)
    (h5 : w.outputWritable = false) :
    (resize_with_transparent_bg w input_path output_path width height sample).result
      = .error (.permissionError ("Permission denied when saving to: " ++ output_path)) ∧
    (resize_with_transparent_bg w input_path output_path width height sample).written
      = none := by
  unfold resize_with_transparent_bg openImage saveImage translateError
  rw [h1, h2, h3, h4, h5]
  exact ⟨rfl, rfl⟩

/-- Witness for amended C8 at a concrete invocation. -/
theorem unwritable_destination_names_output_path_witness :
    (resize_with_transparent_bg unwritableOutputWorld "in.png" "out.png" 1080 1350
        demoSample).result
      = .error (.permissionError ("Permission denied when saving to: " ++ "out.png")) ∧
    (resize_with_transparent_bg unwritableOutputWorld "in.png" "out.png" 1080 1350
        demoSample).written = none :=
  unwritable_destination_names_output_path unwritableOutputWorld "in.png" "out.png"
    1080 1350 demoSample rfl rfl rfl rfl rfl

/-- C10: whenever a `PermissionError` is raised anywhere inside the
transform — including while opening the source image for reading — the
failure signaled to the caller is a `PermissionError` whose message is
"Permission denied when saving to: <output_path>", naming the output
path; a permission failure is never attributed to the input path. -/
theorem permission_error_always_names_output_path (w : World)
    (input_path output_path : String) (width height : ℕ) (sample : ℕ → ℕ → RGBA)
    (h : raisesPermissionError w) :
    (resize_with_transparent_bg w input_path output_path width height sample).result
      = .error (.permissionError ("Permission denied when saving to: " ++ output_path)) := by
  unfold resize_with_transparent_bg openImage saveImage translateError
  rcases h with ⟨h1, h2⟩ | ⟨h1, h2, h3, h4, h5⟩
  · rw [h1, h2]; rfl
  · rw [h1, h2, h3, h4, h5]; rfl

/-- Witness for C10: permission denied while reading the source. -/
theorem permission_error_always_names_output_path_witness :
    (resize_with_transparent_bg unreadableInputWorld "src.jpg" "dst.png" 1080 1080
        demoSample).result
      = .error (.permissionError ("Permission denied when saving to: " ++ "dst.png")) :=
  permission_error_always_names_output_path unreadableInputWorld "src.jpg" "dst.png"
    1080 1080 demoSample (Or.inl ⟨rfl, rfl⟩)

/-- C9: the preset lookup maps each of the three fixed labels to its
(width, height) pair, and every label not present in the preset table
(including the empty no-selection label) silently falls back to the
Portrait entry (1080, 1350) rather than failing. -/
theorem preset_lookup_with_portrait_fallback :
    on_preset_change "Square (1:1) 1080×1080" = (1080, 1080) ∧
    on_preset_change "Portrait (4:5) 1080×1350" = (1080, 1350) ∧
    on_preset_change "Landscape (16:9) 1080×606" = (1080, 606) ∧
    ∀ label : String, label ∉ PRESETS.map Prod.fst →
      on_preset_change label = (1080, 1350) := by
  refine ⟨rfl, rfl, rfl, ?_⟩
  intro label hl
  simp only [PRESETS, List.map_cons, List.map_nil, List.mem_cons, List.not_mem_nil,
    or_false, not_or] at hl
  obtain ⟨h1, h2, h3⟩ := hl
  unfold on_preset_change PRESETS
  rw [List.find?_cons_of_neg, List.find?_cons_of_neg, List.find?_cons_of_neg]
  · rfl
  · simp [Ne.symm h3]
  · simp [Ne.symm h2]
  · simp [Ne.symm h1]

/-- Witness for C9: the empty (no-selection) label falls back to Portrait. -/
theorem preset_lookup_with_portrait_fallback_witness :
    on_preset_change "" = (1080, 1350) :=
  preset_lookup_with_portrait_fallback.2.2.2 "" (by decide)

/-- C2 counterexample: for a 1 × 100 source and a 10 × 10 target, the
scale factor is `s = min(10/1, 10/100, 1) = 1/10`, so the spec's formula
gives width `round(1 * 1/10) = 0`; Pillow's `round_aspect` instead clamps
the scaled width below at 1 pixel, and the transform produces a 1 × 10
scaled image. -/
theorem thumbnail_size_differs_from_round_formula :
    thumbnailSize 1 100 10 10 = (1, 10) ∧
    specScaledDims 1 100 10 10 = (0, 10) ∧
    ((thumbnailSize 1 100 10 10).1 : ℤ) ≠ (specScaledDims 1 100 10 10).1 := by
  have hcode : thumbnailSize 1 100 10 10 = (1, 10) := by
    have h1 : ¬((1 : ℕ) ≤ 10 ∧ (100 : ℕ) ≤ 10) := by decide
    simp only [thumbnailSize, round_aspect, h1, if_false]
    push_cast
    rw [if_pos (show (1 : ℚ) / 100 ≤ 10 / 10 by norm_num)]
    rw [show (10 : ℚ) * (1 / 100) = 1 / 10 by norm_num]
    rw [show ⌊(1 : ℚ) / 10⌋ = 0 from by
      rw [Int.floor_eq_zero_iff]; constructor <;> norm_num]
    rw [show ⌈(1 : ℚ) / 10⌉ = 1 from by
      rw [Int.ceil_eq_iff]; constructor <;> norm_num]
    rw [if_pos (show |(1 : ℚ) / 100 - ((0 : ℤ) : ℚ) / 10|
        ≤ |(1 : ℚ) / 100 - ((1 : ℤ) : ℚ) / 10| by
      push_cast
      rw [abs_of_nonneg (by norm_num), abs_of_nonpos (by norm_num)]
      norm_num)]
    rw [max_eq_right (show (0 : ℤ) ≤ 1 by norm_num)]
    rfl
  have hspec : specScaledDims 1 100 10 10 = (0, 10) := by
    have hs : scaleFactor 1 100 10 10 = 1 / 10 := by
      unfold scaleFactor
      push_cast
      rw [min_eq_left (show (10 : ℚ) / 100 ≤ 1 by norm_num)]
      rw [min_eq_right (show (10 : ℚ) / 100 ≤ 10 / 1 by norm_num)]
      norm_num
    unfold specScaledDims
    rw [hs]
    push_cast
    rw [show (1 : ℚ) * (1 / 10) = 1 / 10 by norm_num]
    rw [show round ((1 : ℚ) / 10) = 0 from by
      rw [round_eq, Int.floor_eq_zero_iff]; constructor <;> norm_num]
    rw [show (100 : ℚ) * (1 / 10) = ((10 : ℕ) : ℚ) by push_cast; norm_num]
    rw [round_natCast]
    rw [min_eq_left (show (0 : ℤ) ≤ 10 by norm_num)]
    rw [min_eq_left (show ((10 : ℕ) : ℤ) ≤ 10 by norm_num)]
    norm_num
  refine ⟨hcode, hspec, ?_⟩
  rw [hcode, hspec]
  decide

/-- The chosen integer of `round_aspect` is never below the 1-pixel floor. -/
lemma one_le_round_aspect (number : ℚ) (key : ℤ → ℚ) : 1 ≤ round_aspect number key :=
  le_max_right _ _

/-- `round_aspect` never exceeds an integer bound that dominates its
positive input. -/
lemma round_aspect_le (number : ℚ) (key : ℤ → ℚ) (B : ℤ) (hN : 0 < number)
    (hB : number ≤ (B : ℚ)) : round_aspect number key ≤ B := by
  unfold round_aspect
  have hc : ⌈number⌉ ≤ B := Int.ceil_le.mpr hB
  have hf : ⌊number⌋ ≤ ⌈number⌉ := Int.floor_le_ceil _
  have h1 : (1 : ℤ) ≤ B := by
    have := Int.ceil_pos.mpr hN
    omega
  rcases le_or_lt (key ⌊number⌋) (key ⌈number⌉) with h | h
  · rw [if_pos h]
    exact max_le (le_trans hf hc) h1
  · rw [if_neg (not_le.mpr h)]
    exact max_le hc h1

/-- `round_aspect` of a positive input is within one of that input,
whatever the key: it picks the floor or the ceiling, clamped below at 1. -/
lemma round_aspect_near (number : ℚ) (key : ℤ → ℚ) (hN : 0 < number) :
    |((round_aspect number key : ℤ) : ℚ) - number| ≤ 1 := by
  unfold round_aspect
  have hfl : ((⌊number⌋ : ℤ) : ℚ) ≤ number := Int.floor_le number
  have hfl2 : number < ((⌊number⌋ : ℤ) : ℚ) + 1 := Int.lt_floor_add_one number
  have hcl : number ≤ ((⌈number⌉ : ℤ) : ℚ) := Int.le_ceil number
  have hcl2 : ((⌈number⌉ : ℤ) : ℚ) < number + 1 := Int.ceil_lt_add_one number
  have hcp : (1 : ℤ) ≤ ⌈number⌉ := Int.ceil_pos.mpr hN
  rcases le_or_lt (key ⌊number⌋) (key ⌈number⌉) with h | h
  · rw [if_pos h]
    rcases le_or_lt 1 ⌊number⌋ with hone | hone
    · rw [max_eq_left hone]
      rw [abs_le]
      constructor <;> linarith
    · rw [max_eq_right (le_of_lt hone)]
      have h0 : ((⌊number⌋ : ℤ) : ℚ) ≤ 0 := by exact_mod_cast by omega
      rw [abs_le]
      push_cast
      constructor <;> linarith
  · rw [if_neg (not_le.mpr h)]
    rw [max_eq_left hcp]
    rw [abs_le]
    constructor <;> linarith

/-- C2 amended: for every source image of positive size and every positive
target box, the scaled dimensions are at least 1, never exceed the target
box, and are each within one pixel of `src * s` for the spec's scale
factor `s = min(target_width / src_width, target_height / src_height, 1)`
— Pillow's floor-or-ceiling aspect-preserving rounding (clamped below at
one pixel) in place of the spec's plain `round`. -/
theorem thumbnailSize_near_round_formula (srcW srcH tgtW tgtH : ℕ)
    (hsw : 1 ≤ srcW) (hsh : 1 ≤ srcH) (htw : 1 ≤ tgtW) (hth : 1 ≤ tgtH) :
    1 ≤ (thumbnailSize srcW srcH tgtW tgtH).1 ∧
    (thumbnailSize srcW srcH tgtW tgtH).1 ≤ tgtW ∧
    1 ≤ (thumbnailSize srcW srcH tgtW tgtH).2 ∧
    (thumbnailSize srcW srcH tgtW tgtH).2 ≤ tgtH ∧
    |((thumbnailSize srcW srcH tgtW tgtH).1 : ℚ)
        - (srcW : ℚ) * scaleFactor srcW srcH tgtW tgtH| ≤ 1 ∧
    |((thumbnailSize srcW srcH tgtW tgtH).2 : ℚ)
        - (srcH : ℚ) * scaleFactor srcW srcH tgtW tgtH| ≤ 1 := by
  have hW : (0 : ℚ) < (srcW : ℚ) := by exact_mod_cast hsw
  have hH : (0 : ℚ) < (srcH : ℚ) := by exact_mod_cast hsh
  have hX : (0 : ℚ) < (tgtW : ℚ) := by exact_mod_cast htw
  have hY : (0 : ℚ) < (tgtH : ℚ) := by exact_mod_cast hth
  by_cases hfit : srcW ≤ tgtW ∧ srcH ≤ tgtH
  · have hsz : thumbnailSize srcW srcH tgtW tgtH = (srcW, srcH) := by
      unfold thumbnailSize
      rw [if_pos hfit]
    have hs1 : scaleFactor srcW srcH tgtW tgtH = 1 := by
      unfold scaleFactor
      rw [min_eq_right ((one_le_div hH).mpr (by exact_mod_cast hfit.2)),
        min_eq_right ((one_le_div hW).mpr (by exact_mod_cast hfit.1))]
    rw [hsz, hs1]
    refine ⟨hsw, hfit.1, hsh, hfit.2, ?_, ?_⟩ <;>
      simp [mul_one, sub_self, abs_zero]
  · simp only [thumbnailSize]
    rw [if_neg hfit]
    by_cases hbr : (srcW : ℚ) / (srcH : ℚ) ≤ (tgtW : ℚ) / (tgtH : ℚ)
    · -- height-constrained branch: scaled height is exactly tgtH
      rw [if_pos hbr]
      have hbr' : (srcW : ℚ) * (tgtH : ℚ) ≤ (tgtW : ℚ) * (srcH : ℚ) :=
        (div_le_div_iff₀ hH hY).mp hbr
      have hYH : tgtH < srcH := by
        by_contra hcon
        push_neg at hcon
        have hWX : tgtW < srcW := by
          rcases Nat.lt_or_ge tgtW srcW with h | h
          · exact h
          · exact absurd ⟨h, hcon⟩ hfit
        have hc1 : (tgtW : ℚ) < (srcW : ℚ) := by exact_mod_cast hWX
        have hc2 : (srcH : ℚ) ≤ (tgtH : ℚ) := by exact_mod_cast hcon
        nlinarith
      set N : ℚ := (tgtH : ℚ) * ((srcW : ℚ) / (srcH : ℚ)) with hNdef
      have hNpos : 0 < N := mul_pos hY (div_pos hW hH)
      have hNle : N ≤ (tgtW : ℚ) := by
        have h1 : (tgtH : ℚ) * ((srcW : ℚ) / (srcH : ℚ))
            ≤ (tgtH : ℚ) * ((tgtW : ℚ) / (tgtH : ℚ)) :=
          mul_le_mul_of_nonneg_left hbr (le_of_lt hY)
        have h2 : (tgtH : ℚ) * ((tgtW : ℚ) / (tgtH : ℚ)) = (tgtW : ℚ) := by
          field_simp
        rw [hNdef]
        linarith
      have hs : scaleFactor srcW srcH tgtW tgtH = (tgtH : ℚ) / (srcH : ℚ) := by
        unfold scaleFactor
        have hin : (tgtH : ℚ) / (srcH : ℚ) ≤ 1 :=
          (div_le_one hH).mpr (by exact_mod_cast le_of_lt hYH)
        rw [min_eq_left hin]
        refine min_eq_right ?_
        rw [div_le_div_iff₀ hH hW]
        linarith
      set r := round_aspect N (fun n => |(srcW : ℚ) / (srcH : ℚ) - (n : ℚ) / (tgtH : ℚ)|)
        with hrdef
      have h1r : 1 ≤ r := one_le_round_aspect _ _
      have hrle : r ≤ (tgtW : ℤ) := round_aspect_le _ _ _ hNpos (by exact_mod_cast hNle)
      have hcast : ((r.toNat : ℕ) : ℚ) = ((r : ℤ) : ℚ) := by
        exact_mod_cast congrArg (fun z : ℤ => (z : ℚ)) (Int.toNat_of_nonneg (by omega))
      refine ⟨by omega, by omega, hth, le_refl _, ?_, ?_⟩
      · rw [hs]
        have hmul : (srcW : ℚ) * ((tgtH : ℚ) / (srcH : ℚ)) = N := by
          rw [hNdef]; ring
        show |((r.toNat : ℕ) : ℚ) - (srcW : ℚ) * ((tgtH : ℚ) / (srcH : ℚ))| ≤ 1
        rw [hmul, hcast]
        exact round_aspect_near N _ hNpos
      · rw [hs]
        have hmul : (srcH : ℚ) * ((tgtH : ℚ) / (srcH : ℚ)) = (tgtH : ℚ) := by
          field_simp
        show |((tgtH : ℕ) : ℚ) - (srcH : ℚ) * ((tgtH : ℚ) / (srcH : ℚ))| ≤ 1
        rw [hmul]
        simp
    · -- width-constrained branch: scaled width is exactly tgtW
      rw [if_neg hbr]
      have hbr' : (tgtW : ℚ) * (srcH : ℚ) < (srcW : ℚ) * (tgtH : ℚ) := by
        have := (div_lt_div_iff₀ hY hH).mp (not_le.mp hbr)
        linarith
      have hXW : tgtW < srcW := by
        by_contra hcon
        push_neg at hcon
        have hYH : tgtH < srcH := by
          rcases Nat.lt_or_ge tgtH srcH with h | h
          · exact h
          · exact absurd ⟨hcon, h⟩ hfit
        have hc1 : (srcW : ℚ) ≤ (tgtW : ℚ) := by exact_mod_cast hcon
        have hc2 : (tgtH : ℚ) < (srcH : ℚ) := by exact_mod_cast hYH
        nlinarith
      have hXW' : (tgtW : ℚ) < (srcW : ℚ) := by exact_mod_cast hXW
      set M : ℚ := (tgtW : ℚ) / ((srcW : ℚ) / (srcH : ℚ)) with hMdef
      have hMpos : 0 < M := div_pos hX (div_pos hW hH)
      have hdiv : (tgtW : ℚ) / (srcW : ℚ) < (tgtH : ℚ) / (srcH : ℚ) := by
        rw [div_lt_div_iff₀ hW hH]
        linarith
      have hs : scaleFactor srcW srcH tgtW tgtH = (tgtW : ℚ) / (srcW : ℚ) := by
        unfold scaleFactor
        refine min_eq_left (le_min (le_of_lt hdiv) ?_)
        exact le_of_lt ((div_lt_one hW).mpr hXW')
      have hM_eq : (srcH : ℚ) * ((tgtW : ℚ) / (srcW : ℚ)) = M := by
        rw [hMdef]
        field_simp
        ring
      have hMle : M ≤ (tgtH : ℚ) := by
        have h3 : (srcH : ℚ) * ((tgtW : ℚ) / (srcW : ℚ))
            ≤ (srcH : ℚ) * ((tgtH : ℚ) / (srcH : ℚ)) :=
          mul_le_mul_of_nonneg_left (le_of_lt hdiv) (le_of_lt hH)
        have h4 : (srcH : ℚ) * ((tgtH : ℚ) / (srcH : ℚ)) = (tgtH : ℚ) := by
          field_simp
        rw [← hM_eq]
        linarith
      set r := round_aspect M
          (fun n => if n = 0 then 0 else |(srcW : ℚ) / (srcH : ℚ) - (tgtW : ℚ) / (n : ℚ)|)
        with hrdef
      have h1r : 1 ≤ r := one_le_round_aspect _ _
      have hrle : r ≤ (tgtH : ℤ) := round_aspect_le _ _ _ hMpos (by exact_mod_cast hMle)
      have hcast : ((r.toNat : ℕ) : ℚ) = ((r : ℤ) : ℚ) := by
        exact_mod_cast congrArg (fun z : ℤ => (z : ℚ)) (Int.toNat_of_nonneg (by omega))
      refine ⟨htw, le_refl _, by omega, by omega, ?_, ?_⟩
      · rw [hs]
        have hmul : (srcW : ℚ) * ((tgtW : ℚ) / (srcW : ℚ)) = (tgtW : ℚ) := by
          field_simp
        show |((tgtW : ℕ) : ℚ) - (srcW : ℚ) * ((tgtW : ℚ) / (srcW : ℚ))| ≤ 1
        rw [hmul]
        simp
      · rw [hs]
        show |((r.toNat : ℕ) : ℚ) - (srcH : ℚ) * ((tgtW : ℚ) / (srcW : ℚ))| ≤ 1
        rw [hM_eq, hcast]
        exact round_aspect_near M _ hMpos

/-- Witness for amended C2: the spec's 2000 × 1000-into-(1080, 1080)
scenario. -/
theorem thumbnailSize_near_round_formula_witness :
    1 ≤ (thumbnailSize 2000 1000 1080 1080).1 ∧
    (thumbnailSize 2000 1000 1080 1080).1 ≤ 1080 ∧
    1 ≤ (thumbnailSize 2000 1000 1080 1080).2 ∧
    (thumbnailSize 2000 1000 1080 1080).2 ≤ 1080 ∧
    |((thumbnailSize 2000 1000 1080 1080).1 : ℚ)
        - (2000 : ℚ) * scaleFactor 2000 1000 1080 1080| ≤ 1 ∧
    |((thumbnailSize 2000 1000 1080 1080).2 : ℚ)
        - (1000 : ℚ) * scaleFactor 2000 1000 1080 1080| ≤ 1 := by
  have h := thumbnailSize_near_round_formula 2000 1000 1080 1080
    (by decide) (by decide) (by decide) (by decide)
  push_cast at h ⊢
  exact h

end IGFormatResizer
